import Mathlib

/-!
# foodq: the recipe-queue handlers of `api-gateway/main.go`

A shallow embedding of the queue part of the API gateway
(`fetchQueueFromDB`, `updateQueueInDB`, `getNextRecipeInQueue`,
`addRecipetoQueue`, `deleteRecipeFromQueue`, `updateQueueOrder`) and the
properties of its ordering logic.

Modelling conventions.

* Go `int` is `Int`.  The handlers only compare recipe ids and compute
  `len(queue.RecipeIds)-1` on a non-empty slice, so no overflow can occur.
* Go `[]int` is `Option (List Int)`: `none` is the nil slice, `some []` the
  empty non-nil slice.  `make([]int, n)` is `List.replicate n 0` and
  `append(s, x)` is `s ++ [x]`.
* `time.Time` is a `Nat`; the reading of `time.Now()` is an argument `now`.
* The pool `dbPool` is the state `DB`: the rows of table `queues`, the list of
  statements sent so far, and an oracle telling which of the coming
  statements fail with a storage error.  A row is read into a `Queue` with
  column `queueid` as `ID` and column `queue` as `RecipeIds`; the table
  definition is not part of the sources.
* A handler is a function from what it reads of the `gin.Context` to the
  response it leaves and the new `DB`.  `strconv.Atoi(c.Param("queueid"))` is
  a library call; its outcome is an argument (`none` when it returns an
  error).
* `addRecipetoQueue`, `deleteRecipeFromQueue` and `updateQueueOrder` hand
  their variable to `c.BindJSON` by value (lines 364, 400, 452), where every
  other handler of main.go hands over `&newUser`, `&newQueue`, `&newRecipe`.
  The callee gets a copy, so the variable keeps its zero value, and the call
  returns an error (see `BindJSON`).  The request body is an argument of these
  handlers all the same: the properties say what becomes of it.
-/

namespace FoodQ

/-! ## Data model -/

/-- Go slice of ints, `none` being the nil slice. -/
abbrev IntSlice := Option (List Int)

/-- Go `len` on a slice. -/
def len (s : IntSlice) : Nat :=
  match s with
  | none => 0
  | some l => l.length

/-- The elements a `range` loop over the slice visits. -/
def elems (s : IntSlice) : List Int :=
  match s with
  | none => []
  | some l => l

/-- Struct `Queue` of main.go. -/
structure Queue where
  ID : Int
  UserId : Int
  RecipeIds : IntSlice
  CreateDate : Nat
  UpdateDate : Nat
deriving DecidableEq, Repr

/-- Struct `RecipePostition` of main.go (the payload of the reorder request). -/
structure RecipePostition where
  RecipeId : Int
  Position : Int
deriving DecidableEq, Repr

/-- The two kinds of error the handlers tell apart: `pgx.ErrNoRows` and any other. -/
inductive DbError where
  | ErrNoRows
  | Other
deriving DecidableEq, Repr

/-- A statement sent to the pool. -/
inductive Stmt where
  /-- The statement `SELECT * FROM queues WHERE queueid=@queueid`. -/
  | Query (queueid : Int)
  /-- The statement `UPDATE queues SET queue = @queue, updatedate = @updatedate WHERE
  queueid=@queueid`. -/
  | Exec (queueid : Int) (queue : List Int) (updatedate : Nat)
deriving DecidableEq, Repr

/-- The pool and the database behind it. -/
structure DB where
  /-- Rows of table `queues`. -/
  queues : List Queue
  /-- Whether the next statements fail (`true`: the statement returns an error). -/
  faults : List Bool
  /-- Statements sent so far, oldest first. -/
  trace : List Stmt
deriving DecidableEq, Repr

/-- Sending one statement: it is recorded, and the oracle says whether it fails. -/
def DB.send (db : DB) (s : Stmt) : Bool × DB :=
  (db.faults.headD false, { db with faults := db.faults.tail, trace := db.trace ++ [s] })

/-- The row a successful `UPDATE` leaves for a row of table `queues`. -/
def setQueue (queueId : Int) (queue : List Int) (now : Nat) (q : Queue) : Queue :=
  if q.ID = queueId then { q with RecipeIds := some queue, UpdateDate := now } else q

/-- The function `fetchQueueFromDB`: first row with that id, `ErrNoRows` when there is none. -/
def fetchQueueFromDB (queueId : Int) (db : DB) : Except DbError Queue × DB :=
  let r := db.send (Stmt.Query queueId)
  if r.1 then (Except.error DbError.Other, r.2)
  else
    match r.2.queues.find? (fun q => decide (q.ID = queueId)) with
    | none => (Except.error DbError.ErrNoRows, r.2)
    | some queue => (Except.ok queue, r.2)

/-- The function `updateQueueInDB`: `none` is the nil error. -/
def updateQueueInDB (queueId : Int) (queue : List Int) (now : Nat) (db : DB) :
    Option DbError × DB :=
  let r := db.send (Stmt.Exec queueId queue now)
  if r.1 then (some DbError.Other, r.2)
  else (none, { r.2 with queues := r.2.queues.map (setQueue queueId queue now) })

/-! ## Responses -/

/-- The Go value handed to `c.JSON`: an `int` or a `[]int`. -/
inductive Payload where
  | int (v : Int)
  | ints (v : IntSlice)
deriving DecidableEq, Repr

/-- What a handler leaves in the `gin.Context`: status code and JSON body, if any. -/
structure Response where
  status : Nat
  body : Option Payload
deriving DecidableEq, Repr

def StatusOK : Nat := 200
def StatusBadRequest : Nat := 400
def StatusNotFound : Nat := 404
def StatusInternalServerError : Nat := 500

/-- The call `c.Status(code)`. -/
def Status (code : Nat) : Response := { status := code, body := none }

/-- The call `c.JSON(code, obj)`. -/
def JSON (code : Nat) (obj : Payload) : Response := { status := code, body := some obj }

/-- A handler that returns without touching the context: gin answers 200 with no body. -/
def untouched : Response := { status := StatusOK, body := none }

/-! ## Handlers -/

/-- The call `c.BindJSON(obj)` with `obj` handed over by value; the result is `err != nil`.
gin decodes the body with `json.NewDecoder(body).Decode(obj)`, and `Decode` returns an
error for every `obj` that is no pointer (or a read error before it looks at `obj`), whatever
`body` holds; `MustBindWith` then sets status 400.  Nothing is stored through `obj`. -/
def BindJSON {α : Type} (_obj : α) (_body : α) : Bool := true

/-- The handler `getNextRecipeInQueue`. -/
def getNextRecipeInQueue (queueid : Option Int) (db : DB) : Response × DB :=
  match queueid with
  | none => (Status StatusBadRequest, db)
  | some queueId =>
    match fetchQueueFromDB queueId db with
    | (Except.error DbError.ErrNoRows, db1) => (Status StatusNotFound, db1)
    | (Except.error DbError.Other, db1) => (Status StatusInternalServerError, db1)
    | (Except.ok queue, db1) =>
      match queue.RecipeIds with
      | some (first :: _) => (JSON StatusOK (Payload.int first), db1)
      | empty => (JSON StatusOK (Payload.ints empty), db1)

/-- The handler `addRecipetoQueue`; `body` is the recipe id the request carries. -/
def addRecipetoQueue (body : Int) (queueid : Option Int) (now : Nat) (db : DB) :
    Response × DB :=
  let recipeId : Int := 0
  if BindJSON recipeId body then (Status StatusBadRequest, db)
  else
    match queueid with
    | none => (Status StatusBadRequest, db)
    | some queueId =>
      match fetchQueueFromDB queueId db with
      | (Except.error DbError.ErrNoRows, db1) => (Status StatusNotFound, db1)
      | (Except.error DbError.Other, db1) => (Status StatusInternalServerError, db1)
      | (Except.ok queue, db1) =>
        let RecipeIds : List Int :=
          match queue.RecipeIds with
          | none => [recipeId]
          | some l => l ++ [recipeId]
        match updateQueueInDB queue.ID RecipeIds now db1 with
        | (some _, db2) => (Status StatusInternalServerError, db2)
        | (none, db2) => (untouched, db2)

/-- Body of the `range` loop of `deleteRecipeFromQueue`, on the pair `(newQueue, found)`. -/
def deleteBody (recipeId : Int) (st : List Int × Bool) (recipe : Int) : List Int × Bool :=
  if recipe = recipeId then (st.1, true) else (st.1 ++ [recipe], st.2)

/-- Lines 427-435: `newQueue := make([]int, len-1)`, `found := false`, then the loop. -/
def deleteScan (RecipeIds : List Int) (recipeId : Int) : List Int × Bool :=
  RecipeIds.foldl (deleteBody recipeId) (List.replicate (RecipeIds.length - 1) 0, false)

/-- The handler `deleteRecipeFromQueue`; `body` is the recipe id the request carries. -/
def deleteRecipeFromQueue (body : Int) (queueid : Option Int) (now : Nat) (db : DB) :
    Response × DB :=
  let recipeId : Int := 0
  if BindJSON recipeId body then (Status StatusBadRequest, db)
  else
    match queueid with
    | none => (Status StatusBadRequest, db)
    | some queueId =>
      match fetchQueueFromDB queueId db with
      | (Except.error DbError.ErrNoRows, db1) => (Status StatusNotFound, db1)
      | (Except.error DbError.Other, db1) => (Status StatusInternalServerError, db1)
      | (Except.ok queue, db1) =>
        if queue.RecipeIds = none ∨ len queue.RecipeIds = 0 then (Status StatusNotFound, db1)
        else
          let r := deleteScan (elems queue.RecipeIds) recipeId
          if r.2 then
            match updateQueueInDB queue.ID r.1 now db1 with
            | (some _, db2) => (Status StatusInternalServerError, db2)
            | (none, db2) => (untouched, db2)
          else (Status StatusNotFound, db1)

/-- Body of the `range` loop of `updateQueueOrder`, on `(newQueue, found)`; the loop
variable is the pair `(index, recipe)`. -/
def orderBody (recipePostion : RecipePostition) (st : List Int × Bool) (ir : Nat × Int) :
    List Int × Bool :=
  if ir.2 = recipePostion.RecipeId then (st.1, true)
  else if (ir.1 : Int) = recipePostion.Position then (st.1 ++ [recipePostion.RecipeId], st.2)
  else (st.1 ++ [ir.2], st.2)

/-- Lines 479-489: `newQueue := make([]int, len)`, `found := false`, then the loop. -/
def orderScan (RecipeIds : List Int) (recipePostion : RecipePostition) : List Int × Bool :=
  RecipeIds.enum.foldl (orderBody recipePostion) (List.replicate RecipeIds.length 0, false)

/-- The handler `updateQueueOrder`; `body` is the recipe id and position the request
carries. -/
def updateQueueOrder (body : RecipePostition) (queueid : Option Int) (now : Nat)
    (db : DB) : Response × DB :=
  let recipePostion : RecipePostition := { RecipeId := 0, Position := 0 }
  if BindJSON recipePostion body then (Status StatusBadRequest, db)
  else
    match queueid with
    | none => (Status StatusBadRequest, db)
    | some queueId =>
      match fetchQueueFromDB queueId db with
      | (Except.error DbError.ErrNoRows, db1) => (Status StatusNotFound, db1)
      | (Except.error DbError.Other, db1) => (Status StatusInternalServerError, db1)
      | (Except.ok queue, db1) =>
        if queue.RecipeIds = none ∨ len queue.RecipeIds = 0 then (Status StatusNotFound, db1)
        else
          let r := orderScan (elems queue.RecipeIds) recipePostion
          if r.2 then
            match updateQueueInDB queue.ID r.1 now db1 with
            | (some _, db2) => (Status StatusInternalServerError, db2)
            | (none, db2) => (untouched, db2)
          else (Status StatusNotFound, db1)

/-- The sequence stored for queue `queueId`, if there is such a row. -/
def stored (db : DB) (queueId : Int) : Option IntSlice :=
  (db.queues.find? (fun q => decide (q.ID = queueId))).map (fun q => q.RecipeIds)

/-- A row of table `queues` with sequence `s`. -/
def row (queueId : Int) (s : IntSlice) : Queue :=
  { ID := queueId, UserId := 1, RecipeIds := s, CreateDate := 0, UpdateDate := 0 }

/-- A database holding the single queue `queueId` with sequence `s`, nothing sent yet and
no storage error ahead. -/
def single (queueId : Int) (s : IntSlice) : DB :=
  { queues := [row queueId s], faults := [], trace := [] }

/-! ## Closed forms used by the statements -/

/-- The sequence made of `len(S)-1` zero entries followed by the elements of `S` that differ
from `r`, in their order. -/
def zerosThenOthers (S : List Int) (r : Int) : List Int :=
  List.replicate (S.length - 1) 0 ++ S.filter (fun x => decide (x ≠ r))

/-- What one round of the loop of `updateQueueOrder` appends for the pair `(index, recipe)`:
nothing for the recipe itself, the recipe id at the wanted position, the element otherwise. -/
def orderEmit (recipePostion : RecipePostition) (ir : Nat × Int) : Option Int :=
  if ir.2 = recipePostion.RecipeId then none
  else if (ir.1 : Int) = recipePostion.Position then some recipePostion.RecipeId
  else some ir.2

/-! ## The engine as the specification words it (section 4.2) -/

/-- Failure kinds of the specified engine. -/
inductive EngineError where
  | NotPresent
  | InvalidPosition
deriving DecidableEq, Repr

/-- Specified `removeFirstMatch`: the first occurrence of `recipeRef` is removed, the rest
keeps its order; `none` is `NotPresent`. -/
def removeFirstMatch (S : List Int) (recipeRef : Int) : Option (List Int) :=
  if recipeRef ∈ S then some (S.erase recipeRef) else none

/-- Specified `append`. -/
def specAppend (S : List Int) (recipeRef : Int) : List Int := S ++ [recipeRef]

/-- Specified `moveToPosition`: `NotPresent` when `recipeRef` is absent; the first occurrence
is removed; a `targetIndex` outside `[0, length-1]` of what is left is `InvalidPosition`;
otherwise `recipeRef` is inserted at `targetIndex`. -/
def moveToPosition (S : List Int) (recipeRef : Int) (targetIndex : Int) :
    Except EngineError (List Int) :=
  if recipeRef ∈ S then
    if 0 ≤ targetIndex ∧ targetIndex ≤ ((S.erase recipeRef).length : Int) - 1 then
      Except.ok ((S.erase recipeRef).insertIdx targetIndex.toNat recipeRef)
    else Except.error EngineError.InvalidPosition
  else Except.error EngineError.NotPresent

/-! ## Two requests at once

gin serves every request in its own goroutine and the handlers take no lock, so the
store calls of two requests can alternate.  One request of `addRecipetoQueue` is cut at
its store calls. -/

/-- Where a request of `addRecipetoQueue` stands: at its start (line 363) with the body
and the queue id it carries, between `fetchQueueFromDB` (line 375) and `updateQueueInDB`
(line 390) holding `recipeId` and the fetched `queue`, or finished. -/
inductive AddPc where
  | start (body : Int) (queueid : Option Int)
  | fetched (recipeId : Int) (queue : Queue)
  | done (resp : Response)
deriving DecidableEq, Repr

/-- The code of a request of `addRecipetoQueue` up to and with its next store call, or up
to its end when it ends before one. -/
def addStep (now : Nat) (pc : AddPc) (db : DB) : AddPc × DB :=
  match pc with
  | AddPc.start body queueid =>
    let recipeId : Int := 0
    if BindJSON recipeId body then (AddPc.done (Status StatusBadRequest), db)
    else
      match queueid with
      | none => (AddPc.done (Status StatusBadRequest), db)
      | some queueId =>
        match fetchQueueFromDB queueId db with
        | (Except.error DbError.ErrNoRows, db1) => (AddPc.done (Status StatusNotFound), db1)
        | (Except.error DbError.Other, db1) =>
          (AddPc.done (Status StatusInternalServerError), db1)
        | (Except.ok queue, db1) => (AddPc.fetched recipeId queue, db1)
  | AddPc.fetched recipeId queue =>
    let RecipeIds : List Int :=
      match queue.RecipeIds with
      | none => [recipeId]
      | some l => l ++ [recipeId]
    match updateQueueInDB queue.ID RecipeIds now db with
    | (some _, db2) => (AddPc.done (Status StatusInternalServerError), db2)
    | (none, db2) => (AddPc.done untouched, db2)
  | AddPc.done resp => (AddPc.done resp, db)

/-- Two requests A and B under a schedule: `false` lets A take its next step, `true`
lets B. -/
def interleave (nowA nowB : Nat) : List Bool → AddPc × AddPc × DB → AddPc × AddPc × DB
  | [], s => s
  | false :: rest, (a, b, db) =>
    interleave nowA nowB rest ((addStep nowA a db).1, b, (addStep nowA a db).2)
  | true :: rest, (a, b, db) =>
    interleave nowA nowB rest (a, (addStep nowB b db).1, (addStep nowB b db).2)

/-- Requests A (asking to append `a`) and B (asking to append `b`) run under `schedule` on a
database holding queue `queueId` with sequence `s`. -/
def twoAdds (schedule : List Bool) (queueId a b : Int) (s : IntSlice) : AddPc × AddPc × DB :=
  interleave 1 2 schedule
    (AddPc.start a (some queueId), AddPc.start b (some queueId), single queueId s)

end FoodQ

/-! # Properties -/

namespace FoodQ

/-! ## The store calls -/

theorem send_queues (db : DB) (s : Stmt) :
    (db.send s).2.queues = db.queues ∧ (db.send s).2.trace = db.trace ++ [s] :=
  ⟨rfl, rfl⟩

/-- A fetch sends one `SELECT` and leaves the rows as they are. -/
theorem fetch_queues (queueId : Int) (db : DB) :
    (fetchQueueFromDB queueId db).2.queues = db.queues
      ∧ (fetchQueueFromDB queueId db).2.trace = db.trace ++ [Stmt.Query queueId] := by
  unfold fetchQueueFromDB
  simp only [DB.send]
  split
  · exact ⟨rfl, rfl⟩
  · split <;> exact ⟨rfl, rfl⟩

/-- A fetched queue is the first row with the wanted id. -/
theorem fetch_ok_find (queueId : Int) (db db1 : DB) (queue : Queue)
    (hf : fetchQueueFromDB queueId db = (Except.ok queue, db1)) :
    db.queues.find? (fun q => decide (q.ID = queueId)) = some queue := by
  unfold fetchQueueFromDB at hf
  simp only [DB.send] at hf
  split at hf
  · simp at hf
  · split at hf
    · simp at hf
    · rename_i q hq
      simp only [Prod.mk.injEq, Except.ok.injEq] at hf
      rw [← hf.1]
      exact hq

theorem fetch_ok_id (queueId : Int) (db db1 : DB) (queue : Queue)
    (hf : fetchQueueFromDB queueId db = (Except.ok queue, db1)) : queue.ID = queueId := by
  have h := List.find?_some (fetch_ok_find queueId db db1 queue hf)
  simpa using h

/-- An update sends one `UPDATE`. -/
theorem update_trace (queueId : Int) (w : List Int) (now : Nat) (db : DB) :
    (updateQueueInDB queueId w now db).2.trace = db.trace ++ [Stmt.Exec queueId w now] := by
  unfold updateQueueInDB
  simp only [DB.send]
  split <;> rfl

/-- An update the storage accepts returns the nil error. -/
theorem update_ok (queueId : Int) (w : List Int) (now : Nat) (db : DB)
    (hok : db.faults.headD false = false) : (updateQueueInDB queueId w now db).1 = none := by
  unfold updateQueueInDB
  simp only [DB.send, hok]
  rfl

theorem find_map_setQueue (queueId : Int) (w : List Int) (now : Nat) (qs : List Queue) :
    (qs.map (setQueue queueId w now)).find? (fun q => decide (q.ID = queueId))
      = (qs.find? (fun q => decide (q.ID = queueId))).map (setQueue queueId w now) := by
  induction qs with
  | nil => rfl
  | cons q qs ih =>
    by_cases hq : q.ID = queueId
    · simp [List.find?_cons, setQueue, hq]
    · simp [List.find?_cons, setQueue, hq, ih]

/-- An update the storage accepts replaces the stored sequence of an existing queue. -/
theorem stored_update (queueId : Int) (w : List Int) (now : Nat) (db : DB) (queue : Queue)
    (hq : db.queues.find? (fun q => decide (q.ID = queueId)) = some queue)
    (hok : db.faults.headD false = false) :
    stored (updateQueueInDB queueId w now db).2 queueId = some (some w) := by
  have hid : queue.ID = queueId := by simpa using List.find?_some hq
  unfold updateQueueInDB stored
  simp only [DB.send, hok]
  rw [if_neg (by simp)]
  simp only [find_map_setQueue, hq, Option.map_some']
  simp [setQueue, hid]

/-! ## The loop of `deleteRecipeFromQueue` -/

theorem foldl_deleteBody (r : Int) (S : List Int) :
    ∀ (acc : List Int) (f : Bool),
      S.foldl (deleteBody r) (acc, f)
        = (acc ++ S.filter (fun x => decide (x ≠ r)), f || decide (r ∈ S)) := by
  induction S with
  | nil => intro acc f; simp
  | cons x xs ih =>
    intro acc f
    by_cases hx : x = r
    · subst hx
      simp [List.foldl_cons, deleteBody, ih]
    · have hx2 : ¬ r = x := fun h => hx h.symm
      simp [List.foldl_cons, deleteBody, ih, hx, hx2]

/-- The loop leaves the padding, then every element other than `r`; `found` tells whether
`r` occurred. -/
theorem deleteScan_eq (S : List Int) (r : Int) :
    deleteScan S r = (zerosThenOthers S r, decide (r ∈ S)) := by
  unfold deleteScan zerosThenOthers
  rw [foldl_deleteBody]
  simp

/-! ## The loop of `updateQueueOrder` -/

theorem foldl_orderBody (rp : RecipePostition) (S : List Int) :
    ∀ (n : Nat) (acc : List Int) (f : Bool),
      (S.enumFrom n).foldl (orderBody rp) (acc, f)
        = (acc ++ (S.enumFrom n).filterMap (orderEmit rp), f || decide (rp.RecipeId ∈ S)) := by
  induction S with
  | nil => intro n acc f; simp
  | cons x xs ih =>
    intro n acc f
    by_cases hx : x = rp.RecipeId
    · simp [List.enumFrom_cons, List.foldl_cons, orderBody, orderEmit, ih, hx]
    · have hx2 : ¬ rp.RecipeId = x := fun h => hx h.symm
      by_cases hp : (n : Int) = rp.Position
      · simp [List.enumFrom_cons, List.foldl_cons, orderBody, orderEmit, ih, hx, hx2, hp]
      · simp [List.enumFrom_cons, List.foldl_cons, orderBody, orderEmit, ih, hx, hx2, hp]

/-- The loop leaves `len(S)` zero entries, then what each round appends; `found` tells
whether the recipe occurred. -/
theorem orderScan_eq (S : List Int) (rp : RecipePostition) :
    orderScan S rp
      = (List.replicate S.length 0 ++ S.enum.filterMap (orderEmit rp),
         decide (rp.RecipeId ∈ S)) := by
  unfold orderScan List.enum
  rw [foldl_orderBody]
  simp

theorem length_filterMap_orderEmit (rp : RecipePostition) (S : List Int) :
    ∀ n : Nat, ((S.enumFrom n).filterMap (orderEmit rp)).length
      = S.countP (fun x => decide (x ≠ rp.RecipeId)) := by
  induction S with
  | nil => intro n; rfl
  | cons x xs ih =>
    intro n
    by_cases hx : x = rp.RecipeId
    · simp [List.enumFrom_cons, orderEmit, hx, ih]
    · by_cases hp : (n : Int) = rp.Position
      · simp [List.enumFrom_cons, orderEmit, hx, hp, ih]
      · simp [List.enumFrom_cons, orderEmit, hx, hp, ih]

/-- The sequence the loop of `updateQueueOrder` builds has `len(S)` entries of padding plus
one entry for every element other than the recipe. -/
theorem orderScan_length (S : List Int) (rp : RecipePostition) :
    (orderScan S rp).1.length = S.length + S.countP (fun x => decide (x ≠ rp.RecipeId)) := by
  rw [orderScan_eq]
  unfold List.enum
  simp [length_filterMap_orderEmit]

/-- The sequence the loop of `deleteRecipeFromQueue` builds differs from the specified
removal as soon as `S` holds an element other than `r`: it is too long. -/
theorem deleteScan_ne_erase (S : List Int) (r x : Int) (hr : r ∈ S) (hx : x ∈ S)
    (hxr : x ≠ r) : (deleteScan S r).1 ≠ S.erase r := by
  intro h
  have h1 : (deleteScan S r).1.length = (S.erase r).length := by rw [h]
  rw [deleteScan_eq, List.length_erase_of_mem hr] at h1
  have hpos : 0 < (S.filter (fun y => decide (y ≠ r))).length :=
    List.length_pos_of_mem (List.mem_filter.mpr ⟨hx, by simpa using hxr⟩)
  simp only [zerosThenOthers, List.length_append, List.length_replicate] at h1
  omega


/-- Every request to `addRecipetoQueue` is answered 400 at the bind; the database is not
touched. -/
theorem addRecipetoQueue_bad_request (body : Int) (queueid : Option Int) (now : Nat)
    (db : DB) : addRecipetoQueue body queueid now db = (Status StatusBadRequest, db) :=
  rfl

/-- Every request to `deleteRecipeFromQueue` is answered 400 at the bind; the database is
not touched. -/
theorem deleteRecipeFromQueue_bad_request (body : Int) (queueid : Option Int) (now : Nat)
    (db : DB) : deleteRecipeFromQueue body queueid now db = (Status StatusBadRequest, db) :=
  rfl

/-- Every request to `updateQueueOrder` is answered 400 at the bind; the database is not
touched. -/
theorem updateQueueOrder_bad_request (body : RecipePostition) (queueid : Option Int)
    (now : Nat) (db : DB) :
    updateQueueOrder body queueid now db = (Status StatusBadRequest, db) :=
  rfl

/-- The steps of `addStep`, one after the other, are the handler. -/
theorem addStep_twice (body : Int) (queueid : Option Int) (now : Nat) (db : DB) :
    addStep now (addStep now (AddPc.start body queueid) db).1
        (addStep now (AddPc.start body queueid) db).2
      = (AddPc.done (addRecipetoQueue body queueid now db).1,
         (addRecipetoQueue body queueid now db).2) :=
  rfl

/-- A step of a request that is not between its two store calls ends the request and
leaves the database as it is. -/
theorem addStep_ends (now : Nat) (pc : AddPc) (db : DB)
    (h : ∀ (r : Int) (q : Queue), pc ≠ AddPc.fetched r q) :
    (addStep now pc db).2 = db
      ∧ ∀ (r : Int) (q : Queue), (addStep now pc db).1 ≠ AddPc.fetched r q := by
  cases pc with
  | start body queueid => exact ⟨rfl, fun r q hc => by cases hc⟩
  | fetched r q => exact absurd rfl (h r q)
  | done resp => exact ⟨rfl, fun r q hc => by cases hc⟩

/-- No schedule of two requests that stand at their start or end touches the database. -/
theorem interleave_db (nowA nowB : Nat) (schedule : List Bool) :
    ∀ (a b : AddPc) (db : DB),
      (∀ (r : Int) (q : Queue), a ≠ AddPc.fetched r q) →
      (∀ (r : Int) (q : Queue), b ≠ AddPc.fetched r q) →
      (interleave nowA nowB schedule (a, b, db)).2.2 = db := by
  induction schedule with
  | nil => intro a b db _ _; rfl
  | cons x rest ih =>
    intro a b db ha hb
    cases x with
    | false =>
      have h := addStep_ends nowA a db ha
      simp only [interleave]
      rw [ih _ b _ h.2 hb, h.1]
    | true =>
      have h := addStep_ends nowB b db hb
      simp only [interleave]
      rw [ih a _ _ ha h.2, h.1]

/-! ## Claims -/

/-- C1 at the queue `[5, 7, 9]` and a request to remove 7: the specified removal gives
`[5, 9]`; `deleteRecipeFromQueue` answers 400 Bad Request at the bind, sends no statement,
and the stored sequence stays `[5, 7, 9]`.  The loop behind the bind, run on `[5, 7, 9]`
with recipe id 7, builds `[0, 0, 5, 9]`, and on `[7, 5, 7]` it builds `[0, 0, 5]` where the
specified removal gives `[5, 7]`. -/
theorem deleteRecipeFromQueue_at_5_7_9 :
    removeFirstMatch [5, 7, 9] 7 = some [5, 9]
    ∧ deleteRecipeFromQueue 7 (some 1) 9 (single 1 (some [5, 7, 9]))
        = ({ status := 400, body := none },
            { queues := [{ ID := 1, UserId := 1, RecipeIds := some [5, 7, 9],
                           CreateDate := 0, UpdateDate := 0 }],
              faults := [], trace := [] })
    ∧ stored (deleteRecipeFromQueue 7 (some 1) 9 (single 1 (some [5, 7, 9]))).2 1
        = some (some [5, 7, 9])
    ∧ deleteScan [5, 7, 9] 7 = ([0, 0, 5, 9], true)
    ∧ removeFirstMatch [7, 5, 7] 7 = some [5, 7]
    ∧ deleteScan [7, 5, 7] 7 = ([0, 0, 5], true) := by
  refine ⟨?_, ?_, ?_, ?_, ?_, ?_⟩ <;> decide

/-- C2 at the queue `[5, 7, 9]` and a request to move 9 to index 0: the specified move
gives `[9, 5, 7]`; `updateQueueOrder` answers 400 Bad Request at the bind, sends no
statement, and the stored sequence stays `[5, 7, 9]`.  The loop behind the bind, run on
`[5, 7, 9]` with recipe id 9 and position 0, builds `[0, 0, 0, 9, 7]`. -/
theorem updateQueueOrder_at_5_7_9 :
    moveToPosition [5, 7, 9] 9 0 = Except.ok [9, 5, 7]
    ∧ updateQueueOrder { RecipeId := 9, Position := 0 } (some 1) 9
          (single 1 (some [5, 7, 9]))
        = ({ status := 400, body := none },
            { queues := [{ ID := 1, UserId := 1, RecipeIds := some [5, 7, 9],
                           CreateDate := 0, UpdateDate := 0 }],
              faults := [], trace := [] })
    ∧ stored (updateQueueOrder { RecipeId := 9, Position := 0 } (some 1) 9
          (single 1 (some [5, 7, 9]))).2 1 = some (some [5, 7, 9])
    ∧ orderScan [5, 7, 9] { RecipeId := 9, Position := 0 } = ([0, 0, 0, 9, 7], true) := by
  refine ⟨rfl, ?_, ?_, ?_⟩ <;> decide

/-- C4 at the queue `[5, 9]` and requests to remove, and to move to index 1, the absent
recipe 7: both handlers send no statement and leave the stored sequence as it is, but the
answer is 400 Bad Request, set at the bind, and not 404 Not Found. -/
theorem absent_recipe_bad_request :
    (7 : Int) ∉ [5, 9]
    ∧ deleteRecipeFromQueue 7 (some 1) 3 (single 1 (some [5, 9]))
        = ({ status := 400, body := none }, single 1 (some [5, 9]))
    ∧ updateQueueOrder { RecipeId := 7, Position := 1 } (some 1) 3 (single 1 (some [5, 9]))
        = ({ status := 400, body := none }, single 1 (some [5, 9]))
    ∧ (single 1 (some [5, 9])).trace = []
    ∧ (deleteRecipeFromQueue 7 (some 1) 3 (single 1 (some [5, 9]))).1.status ≠ StatusNotFound
    ∧ (updateQueueOrder { RecipeId := 7, Position := 1 } (some 1) 3
          (single 1 (some [5, 9]))).1.status ≠ StatusNotFound := by
  refine ⟨?_, ?_, ?_, ?_, ?_, ?_⟩ <;> decide

/-- C7: on a fetched queue, `getNextRecipeInQueue` answers 200 with the element at index 0
when the sequence is not empty; when it is empty (nil or of length 0) it answers 200 with
the slice itself, a payload that is no `int` and so differs from the answer for any first
element, 0 included.  Nothing is sent after the fetch: the rows are unchanged and the
only statement is the `SELECT`. -/
theorem getNext_first_or_empty (queueId : Int) (db db1 : DB) (queue : Queue)
    (hf : fetchQueueFromDB queueId db = (Except.ok queue, db1)) :
    (∀ (first : Int) (rest : List Int), queue.RecipeIds = some (first :: rest) →
        getNextRecipeInQueue (some queueId) db = (JSON StatusOK (Payload.int first), db1))
    ∧ (len queue.RecipeIds = 0 →
        getNextRecipeInQueue (some queueId) db
            = (JSON StatusOK (Payload.ints queue.RecipeIds), db1)
        ∧ (queue.RecipeIds = none ∨ queue.RecipeIds = some [])
        ∧ ∀ (n : Int) (d : DB),
            getNextRecipeInQueue (some queueId) db ≠ (JSON StatusOK (Payload.int n), d))
    ∧ db1.queues = db.queues
    ∧ db1.trace = db.trace ++ [Stmt.Query queueId] := by
  have hfq := fetch_queues queueId db
  simp only [hf] at hfq
  refine ⟨?_, ?_, hfq.1, hfq.2⟩
  · intro first rest hS
    unfold getNextRecipeInQueue
    simp only [hf, hS]
  · intro hlen
    have hcases : queue.RecipeIds = none ∨ queue.RecipeIds = some [] := by
      cases hq : queue.RecipeIds with
      | none => exact Or.inl rfl
      | some l =>
        rw [hq] at hlen
        exact Or.inr (by rw [List.length_eq_zero.mp hlen])
    have hget : getNextRecipeInQueue (some queueId) db
        = (JSON StatusOK (Payload.ints queue.RecipeIds), db1) := by
      unfold getNextRecipeInQueue
      rcases hcases with h | h <;> simp only [hf, h]
    refine ⟨hget, hcases, ?_⟩
    intro n d h
    rw [hget] at h
    simp [JSON] at h

/-- Instance of C7: the queue `[0, 3]` answers the int 0, the empty queue answers the
empty slice. -/
theorem getNext_first_or_empty_witness :
    fetchQueueFromDB 1 (single 1 (some [0, 3]))
        = (Except.ok (row 1 (some [0, 3])),
            { queues := [row 1 (some [0, 3])], faults := [], trace := [Stmt.Query 1] })
    ∧ (getNextRecipeInQueue (some 1) (single 1 (some [0, 3]))).1
        = JSON StatusOK (Payload.int 0)
    ∧ (getNextRecipeInQueue (some 1) (single 1 (some []))).1
        = JSON StatusOK (Payload.ints (some [])) :=
  ⟨rfl,
    congrArg Prod.fst
      ((getNext_first_or_empty 1 (single 1 (some [0, 3])) _ (row 1 (some [0, 3])) rfl).1
        0 [3] rfl),
    congrArg Prod.fst
      ((getNext_first_or_empty 1 (single 1 (some [])) _ (row 1 (some [])) rfl).2.1 rfl).1⟩


/-- C6 at `S = [5]` and `r = 7`, absent from `S`: specified append then removal succeed
and give back `[5]`; `addRecipetoQueue` answers 400 Bad Request and appends nothing, and
`deleteRecipeFromQueue` after it answers 400 Bad Request as well, so neither step
succeeds.  The loop behind the bind, run on `[5, 7]` with recipe id 7, builds `[0, 5]`. -/
theorem add_then_delete_at_5 :
    removeFirstMatch (specAppend [5] 7) 7 = some [5]
    ∧ addRecipetoQueue 7 (some 1) 8 (single 1 (some [5]))
        = ({ status := 400, body := none }, single 1 (some [5]))
    ∧ deleteRecipeFromQueue 7 (some 1) 9
          (addRecipetoQueue 7 (some 1) 8 (single 1 (some [5]))).2
        = ({ status := 400, body := none }, single 1 (some [5]))
    ∧ (deleteRecipeFromQueue 7 (some 1) 9
          (addRecipetoQueue 7 (some 1) 8 (single 1 (some [5]))).2).1.status ≠ StatusOK
    ∧ deleteScan [5, 7] 7 = ([0, 5], true) := by
  refine ⟨?_, ?_, ?_, ?_, ?_⟩ <;> decide

/-- C8 at the queue `[5, 7, 9]` and a request to move 7 to index 1, where it stands: the
specified move succeeds and gives `[5, 7, 9]` back; `updateQueueOrder` answers 400 Bad
Request at the bind, so the move does not succeed.  The loop behind the bind, run on
`[5, 7, 9]` with recipe id 7 and position 1, builds `[0, 0, 0, 5, 9]`, without 7. -/
theorem updateQueueOrder_same_index :
    moveToPosition [5, 7, 9] 7 1 = Except.ok [5, 7, 9]
    ∧ ([5, 7, 9] : List Int).indexOf 7 = 1
    ∧ updateQueueOrder { RecipeId := 7, Position := 1 } (some 1) 9
          (single 1 (some [5, 7, 9]))
        = ({ status := 400, body := none }, single 1 (some [5, 7, 9]))
    ∧ (updateQueueOrder { RecipeId := 7, Position := 1 } (some 1) 9
          (single 1 (some [5, 7, 9]))).1.status ≠ StatusOK
    ∧ orderScan [5, 7, 9] { RecipeId := 7, Position := 1 } = ([0, 0, 0, 5, 9], true)
    ∧ (7 : Int) ∉ [0, 0, 0, 5, 9] := by
  refine ⟨rfl, ?_, ?_, ?_, ?_, ?_⟩ <;> decide

/-- C9 at two requests asking to append 10 and 20 to the empty queue 1: under each of the
six schedules of their steps both requests end with 400 Bad Request at the bind and the
database is as before: no statement was sent and the stored sequence is still empty, so
it holds neither 10 nor 20.  The same holds of any two references and any schedule: the
database is never touched. -/
theorem two_adds_store_nothing :
    twoAdds [false, false, true, true] 1 10 20 (some [])
        = (AddPc.done (Status StatusBadRequest), AddPc.done (Status StatusBadRequest),
            single 1 (some []))
    ∧ twoAdds [true, true, false, false] 1 10 20 (some [])
        = (AddPc.done (Status StatusBadRequest), AddPc.done (Status StatusBadRequest),
            single 1 (some []))
    ∧ twoAdds [false, true, false, true] 1 10 20 (some [])
        = (AddPc.done (Status StatusBadRequest), AddPc.done (Status StatusBadRequest),
            single 1 (some []))
    ∧ twoAdds [true, false, false, true] 1 10 20 (some [])
        = (AddPc.done (Status StatusBadRequest), AddPc.done (Status StatusBadRequest),
            single 1 (some []))
    ∧ twoAdds [false, true, true, false] 1 10 20 (some [])
        = (AddPc.done (Status StatusBadRequest), AddPc.done (Status StatusBadRequest),
            single 1 (some []))
    ∧ twoAdds [true, false, true, false] 1 10 20 (some [])
        = (AddPc.done (Status StatusBadRequest), AddPc.done (Status StatusBadRequest),
            single 1 (some []))
    ∧ stored (single 1 (some [])) 1 = some (some [])
    ∧ (single 1 (some [])).trace = []
    ∧ (10 : Int) ∉ ([] : List Int) ∧ (20 : Int) ∉ ([] : List Int)
    ∧ ∀ (schedule : List Bool) (queueId a b : Int) (s : IntSlice),
        (twoAdds schedule queueId a b s).2.2 = single queueId s := by
  refine ⟨by decide, by decide, by decide, by decide, by decide, by decide, by decide,
    by decide, by decide, by decide, ?_⟩
  intro schedule queueId a b s
  exact interleave_db 1 2 schedule _ _ _ (fun _ _ h => by cases h) (fun _ _ h => by cases h)

/-- C10 as amended: the loop of `deleteRecipeFromQueue` (lines 427-435), run on a sequence
`S` with a recipe id `r` that occurs in `S`, sets `found` and builds `len(S)-1` zero
entries followed by the elements of `S` other than `r` in their order.  The length of that
sequence is `(len(S)-1)` plus the number of elements other than `r`, more than `len(S)-1`
as soon as `S` has an element other than `r`. -/
theorem deleteScan_builds_padding (S : List Int) (r : Int) (hr : r ∈ S) :
    deleteScan S r
        = (List.replicate (S.length - 1) 0 ++ S.filter (fun x => decide (x ≠ r)), true)
    ∧ (deleteScan S r).1.length = (S.length - 1) + S.countP (fun x => decide (x ≠ r))
    ∧ ((∃ x ∈ S, x ≠ r) → S.length - 1 < (deleteScan S r).1.length) := by
  have h : deleteScan S r
      = (List.replicate (S.length - 1) 0 ++ S.filter (fun x => decide (x ≠ r)), true) := by
    rw [deleteScan_eq, zerosThenOthers]
    simp [hr]
  refine ⟨h, ?_, ?_⟩
  · rw [h]
    simp [List.countP_eq_length_filter]
  · rintro ⟨x, hx, hxr⟩
    have hpos : 0 < (S.filter (fun x => decide (x ≠ r))).length :=
      List.length_pos_of_mem (List.mem_filter.mpr ⟨hx, by simpa using hxr⟩)
    rw [h]
    simp only [List.length_append, List.length_replicate]
    omega

/-- Instance of C10 as amended at `[5, 7, 9]` and `r = 7`: two zero entries, then 5 and 9. -/
theorem deleteScan_builds_padding_witness :
    (7 : Int) ∈ [5, 7, 9] ∧ deleteScan [5, 7, 9] 7 = ([0, 0, 5, 9], true) :=
  ⟨by decide, (deleteScan_builds_padding [5, 7, 9] 7 (by decide)).1⟩

/-- C10 as stated fails: on the queue `[5, 7, 9]` and a request to remove 7,
`deleteRecipeFromQueue` writes nothing: it answers 400 Bad Request at the bind, no
statement is sent and the stored sequence is `[5, 7, 9]`, not `[0, 0, 5, 9]`. -/
theorem deleteRecipeFromQueue_sends_no_update :
    (deleteRecipeFromQueue 7 (some 1) 9 (single 1 (some [5, 7, 9]))).1.status
        = StatusBadRequest
    ∧ (deleteRecipeFromQueue 7 (some 1) 9 (single 1 (some [5, 7, 9]))).2.trace = []
    ∧ stored (deleteRecipeFromQueue 7 (some 1) 9 (single 1 (some [5, 7, 9]))).2 1
        ≠ some (some [0, 0, 5, 9]) := by
  refine ⟨?_, ?_, ?_⟩ <;> decide

end FoodQ
